import Mathlib

/-!
# GoBank: the deposit / withdraw pipeline of `src/main.go`

A shallow embedding of the request handlers (`handleDepositRequest`,
`handleWithdrawRequest`), the two queue workers (`depositProcess`,
`withdrawProcess`) and the fallback writer (`writeFile`).

Modelling conventions.

* A finite `float64` is the rational number it denotes (`Money`); the values
  of the type are the rationals that `rnd64` leaves unchanged.  The float64
  operations `+` and `-` of the workers round their exact result with `rnd64`
  (round to nearest, ties to even); `<` and `<=` compare exactly, as in Go.
  JSON decoding cannot produce an infinity or a NaN, and the sums and
  differences formed here stay far below the float64 range.
* The column `balance` is `NUMERIC(10, 2)`.  An `UPDATE` rounds the value it
  receives to two decimals (`toNumeric`) and fails at `10 ^ 8`; `Scan` turns
  the stored decimal into the nearest float64.  A row of the model records its
  balance as that float64, the value the next `Scan` returns.
* The table `clients` is a list of rows.  A store transaction is modelled by
  its effect: the `UPDATE` reaches the table only when `tx.Commit()` succeeds.
* Failures of the database and of the file system are inputs (`DbFaults`,
  `FsFaults`): the code cannot choose them.
* An `http.ResponseWriter` is a handle (a number); every call that writes a
  response on it is recorded together with the handle.
* A channel is the list of the values sent on it, oldest first.  The channels
  are never closed, so a worker that finds its channel empty waits.
-/

set_option linter.dupNamespace false

namespace GoBank

/-- Numeric type of amounts and balances (`float64` in the source): the rational number that a
finite float64 denotes. -/
abbrev Money := ℚ

/-- Handle of an `http.ResponseWriter`. -/
abbrev ResponseWriter := Nat

/-- One row of table `clients` as declared by `createTable`: the balance column is nullable; a
balance that is set is recorded as the float64 that `Scan` returns for it. -/
structure ClientRow where
  id : Int
  name : String
  balance : Option Money
deriving DecidableEq

/-- Contents of table `clients`. -/
abbrev Table := List ClientRow

/-- What a handler or worker writes on a response writer: status code and body. -/
structure Response where
  status : Nat
  body : String
deriving DecidableEq

/-- The parts of `*http.Request` that the handlers read.  Of the JSON body: the value that
`Decode` leaves in the field `Amount` of its target (zero when it stores nothing) and the error
it returns, which depend on the body only; `Decode` may store an amount and still return an
error, as for a body with the key `amount` twice, first a number and then a string.  Of the
form: the value `client_id`. -/
structure Request where
  amount : Money
  decodeErr : Option String
  client_id : String
deriving DecidableEq

/-- Go type `Amount`, the target of the JSON decoding. -/
structure Amount where
  Amount : Money
deriving DecidableEq

/-- Go type `DepositTransaction`. -/
structure DepositTransaction where
  Id : Int
  Amount : Money
  W : ResponseWriter
  R : Request
deriving DecidableEq

/-- Go type `WithdrawTransaction`. -/
structure WithdrawTransaction where
  Id : Int
  Amount : Money
  W : ResponseWriter
  R : Request
deriving DecidableEq

/-- The local type `tx` of `writeFile`: one line of `database_crashed.csv`. -/
structure FallbackRecord where
  time : Int
  id : Int
  amount : Money
deriving DecidableEq

/-- Errors the database may report during one loop iteration, one field per call
(`db.Begin`, `QueryRow(..).Scan` for a reason other than a missing row, `tx.Exec` for a reason
other than a value the column cannot hold, `tx.Commit`); `none` means the call succeeds. -/
structure DbFaults where
  beginErr : Option String := none
  scanErr : Option String := none
  execErr : Option String := none
  commitErr : Option String := none
deriving DecidableEq

/-- Errors the file system may report inside `writeFile` (`os.OpenFile`, `fmt.Fprintln`). -/
structure FsFaults where
  openErr : Option String := none
  writeErr : Option String := none
deriving DecidableEq

/-- What a handler gets from its surroundings: the result of `db.Ping()`, the file system
faults, and `time.Now().Unix()`. -/
structure Env where
  pingErr : Option String
  fs : FsFaults
  now : Int
deriving DecidableEq

/-- Everything the handlers can change: the table, the two channels, the fallback file, the
responses written so far, and two counters of calls (`db.Ping`, `writeFile`). -/
structure World where
  clients : Table
  queueDeposit : List DepositTransaction
  queueWithdraw : List WithdrawTransaction
  file : List FallbackRecord
  written : List (ResponseWriter × Response)
  pings : Nat
  writeFileCalls : Nat
deriving DecidableEq

/-- How one loop iteration ends: the loop goes on, the worker function returns, or the
goroutine panics. -/
inductive Flow where
  | next
  | returned
  | panicked
deriving DecidableEq

/-- How a worker ends on a given channel content: waiting on a receive, returned, panicked. -/
inductive WorkerExit where
  | waiting
  | returned
  | panicked
deriving DecidableEq

/-- Result of one loop iteration: the table afterwards, the response written on `client.W`
(if any), the `UPDATE` statements that were committed (account and the float64 passed as new
balance), and how the iteration ends. -/
structure StepResult where
  clients : Table
  written : Option Response
  committed : List (Int × Money)
  flow : Flow
deriving DecidableEq

/-- Result of running a worker on a channel content: the table afterwards, the responses
written, the commands whose loop body ran, the commands received by the `range` clause and
never used, the commands left in the channel, and how the worker ends. -/
structure LoopResult (α : Type) where
  clients : Table
  written : List (ResponseWriter × Response)
  processed : List α
  discarded : List α
  pending : List α
  exit : WorkerExit

/-- Go `http.Error(w, msg, code)`: status `code`, body `msg` followed by a newline. -/
def httpError (msg : String) (code : Nat) : Response :=
  ⟨code, msg ++ "\n"⟩

/-- Text of `sql.ErrNoRows`. -/
def errNoRows : String := "sql: no rows in result set"

/-- Text of the error of PostgreSQL for a value that `NUMERIC(10, 2)` cannot hold, as the driver
reports it. -/
def errNumericOverflow : String := "pq: numeric field overflow"

/-- Go `strconv.Quote`, used in the text of the errors of `Atoi`.  It is rendered with the
quoting of Lean strings, which gives the same text for printable ASCII input; for control and
non-printable characters the two escape differently. -/
def strconvQuote (s : String) : String := s.quote

/-- Go `strconv.Atoi` on a 64-bit platform: an optional sign, then one or more decimal digits,
and the value must fit `int`.  The accepted strings and their values are those of Go; the error
text is that of `strconv.NumError` with the input quoted by `strconvQuote`. -/
def Atoi (s : String) : Except String Int :=
  let cs := s.toList
  let neg := cs.head? = some '-'
  let ds := if cs.head? = some '-' ∨ cs.head? = some '+' then cs.tail else cs
  if ds = [] ∨ ¬ ds.all Char.isDigit = true then
    .error ("strconv.Atoi: parsing " ++ strconvQuote s ++ ": invalid syntax")
  else
    let n : Int := (ds.foldl (fun acc d => 10 * acc + (d.toNat - 48)) 0 : Nat)
    let v : Int := if neg then -n else n
    if v < -(2 : Int) ^ 63 ∨ (2 : Int) ^ 63 ≤ v then
      .error ("strconv.Atoi: parsing " ++ strconvQuote s ++ ": value out of range")
    else .ok v

/-- The statement `var a Amount; _ = json.NewDecoder(r.Body).Decode(&a)`: the error is thrown
away and `a` holds whatever `Decode` left in it. -/
def decodeBody (r : Request) : Amount :=
  ⟨r.amount⟩

/-- Nearest integer, ties to the even one. -/
def roundHalfEven (y : ℚ) : ℤ :=
  if y - ⌊y⌋ < 1 / 2 then ⌊y⌋
  else if 1 / 2 < y - ⌊y⌋ then ⌊y⌋ + 1
  else if ⌊y⌋ % 2 = 0 then ⌊y⌋ else ⌊y⌋ + 1

/-- Nearest integer, ties away from zero. -/
def roundHalfAway (x : ℚ) : ℤ :=
  if 0 ≤ x then ⌊x + 1 / 2⌋ else -⌊-x + 1 / 2⌋

/-- Rounding to float64 (IEEE 754 binary64, round to nearest, ties to even): the result is a
multiple of `2 ^ e` where `e` is the exponent of the last of the 53 bits of `x`, not below
`-1074`.  Values beyond the largest float64 do not arise in this program and are not treated
specially. -/
def rnd64 (x : ℚ) : ℚ :=
  let e : ℤ := max (Int.log 2 |x| - 52) (-1074)
  (roundHalfEven (x / 2 ^ e) : ℚ) * 2 ^ e

/-- The decimal that column `balance NUMERIC(10, 2)` holds after `SET balance = $1` with the
float64 `v`, or the error of the statement.  The driver sends `v` as the shortest decimal text
that parses back to `v`, and PostgreSQL rounds that text to two decimals, ties away from zero,
and rejects a result of `10 ^ 8` or more.  Below `2 ^ 27` two decimals with at most three
fractional digits are too far apart to parse to the same float64, so the text sent is the
three-decimal neighbour `t` of `v` when `t` parses back to `v`; when it does not, no tie of the
two-decimal rounding lies between the text and `v`, and both round alike.  From `2 ^ 27` on the
text and `v` both round beyond the column. -/
def toNumeric (v : Money) : Except String ℚ :=
  let t : ℚ := (roundHalfAway (v * 1000) : ℚ) / 1000
  let d : ℚ := if rnd64 t = v then t else v
  let r : ℚ := (roundHalfAway (d * 100) : ℚ) / 100
  if 10 ^ 8 ≤ |r| then .error errNumericOverflow else .ok r

/-- Query `SELECT balance FROM clients WHERE id = $1` through `QueryRow`: the balance column of
the first matching row; `none` when no row matches (`Scan` then returns `sql.ErrNoRows`). -/
def selectBalance (t : Table) (id : Int) : Option (Option Money) :=
  (t.find? (fun c => decide (c.id = id))).map (fun c => c.balance)

/-- The rows of `t` with the balance of every row of account `id` replaced by `b`. -/
def setBalance (t : Table) (b : Money) (id : Int) : Table :=
  t.map (fun c => if c.id = id then { c with balance := some b } else c)

/-- Statement `UPDATE clients SET balance = $1 WHERE id = $2` with the float64 `newBalance`: the
column takes the value rounded by `toNumeric`, recorded as the float64 that `Scan` returns for
it, or the statement fails because the column cannot hold the value. -/
def updateBalance (t : Table) (newBalance : Money) (id : Int) : Except String Table :=
  match toNumeric newBalance with
  | .error e => .error e
  | .ok r => .ok (setBalance t (rnd64 r) id)

/-- The call `tx.QueryRow(..).Scan(&currentBalance)`: an injected error, `sql.ErrNoRows` when
the account has no row, otherwise the nullable balance (`sql.NullFloat64`). -/
def scanBalance (f : DbFaults) (t : Table) (id : Int) : Except String (Option Money) :=
  match f.scanErr with
  | some e => .error e
  | none =>
    match selectBalance t id with
    | none => .error errNoRows
    | some b => .ok b

/-- Function `writeFile`: append one record to `database_crashed.csv`, or give up (after a
message on standard output) when the file cannot be opened or written. -/
def writeFile (fs : FsFaults) (now : Int) (transaction : WithdrawTransaction)
    (file : List FallbackRecord) : List FallbackRecord :=
  match fs.openErr with
  | some _ => file
  | none =>
    let UserData : FallbackRecord := ⟨now, transaction.Id, transaction.Amount⟩
    match fs.writeErr with
    | some _ => file
    | none => file ++ [UserData]

/-- Function `handleDepositRequest`. -/
def handleDepositRequest (w : ResponseWriter) (r : Request) (s : World) : World :=
  let a := decodeBody r
  if a.Amount ≤ 0 then
    { s with written := s.written ++ [(w, httpError "insufficient funds" 400)] }
  else
    match Atoi r.client_id with
    | .error e => { s with written := s.written ++ [(w, httpError e 500)] }
    | .ok ID =>
      let tx : DepositTransaction := ⟨ID, a.Amount, w, r⟩
      { s with
        queueDeposit := s.queueDeposit ++ [tx]
        written := s.written ++ [(w, ⟨200, "Deposit accepted successfully"⟩)] }

/-- Function `handleWithdrawRequest`.  After a failed `db.Ping()` it calls `writeFile` and then
goes on to the send on `queueWithdraw` like the other branch. -/
def handleWithdrawRequest (env : Env) (w : ResponseWriter) (r : Request) (s : World) : World :=
  let a := decodeBody r
  if a.Amount ≤ 0 then
    { s with written := s.written ++ [(w, httpError "insufficient funds" 400)] }
  else
    match Atoi r.client_id with
    | .error e => { s with written := s.written ++ [(w, httpError e 500)] }
    | .ok ID =>
      let tx : WithdrawTransaction := ⟨ID, a.Amount, w, r⟩
      let s1 : World :=
        match env.pingErr with
        | some _ =>
          { s with
            pings := s.pings + 1
            file := writeFile env.fs env.now tx s.file
            writeFileCalls := s.writeFileCalls + 1 }
        | none => { s with pings := s.pings + 1 }
      { s1 with
        queueWithdraw := s1.queueWithdraw ++ [tx]
        written := s1.written ++ [(w, ⟨200, "Withdrawal  accpeted"⟩)] }

/-- Body of the loop of `depositProcess` for the command `client`.  When `db.Begin()` fails the
code calls `tx.Rollback()` on the nil transaction, a nil dereference, before it can write
anything.  The new balance is the float64 sum of the balance read and the amount, or the amount
itself when the balance is NULL. -/
def depositProcessStep (f : DbFaults) (db : Table) (client : DepositTransaction) : StepResult :=
  match f.beginErr with
  | some _ => ⟨db, none, [], .panicked⟩
  | none =>
    match scanBalance f db client.Id with
    | .error e => ⟨db, some (httpError e 500), [], .returned⟩
    | .ok currentBalance =>
      let newBalance : Money :=
        match currentBalance with
        | some b => rnd64 (b + client.Amount)
        | none => client.Amount
      match f.execErr with
      | some e => ⟨db, some (httpError e 500), [], .returned⟩
      | none =>
        match updateBalance db newBalance client.Id with
        | .error e => ⟨db, some (httpError e 500), [], .returned⟩
        | .ok updated =>
          match f.commitErr with
          | some e => ⟨db, some (httpError e 500), [], .returned⟩
          | none => ⟨updated, none, [(client.Id, newBalance)], .next⟩

/-- Body of the loop of `withdrawProcess` for the command `client`.  The new balance is the
float64 difference of the balance read and the amount. -/
def withdrawProcessStep (f : DbFaults) (db : Table) (client : WithdrawTransaction) : StepResult :=
  match f.beginErr with
  | some e => ⟨db, some (httpError e 500), [], .returned⟩
  | none =>
    match scanBalance f db client.Id with
    | .error e => ⟨db, some (httpError e 500), [], .returned⟩
    | .ok none => ⟨db, some (httpError "insufficient funds" 400), [], .returned⟩
    | .ok (some b) =>
      if b < client.Amount then
        ⟨db, some (httpError "insufficient funds" 400), [], .returned⟩
      else
        let newBalance : Money := rnd64 (b - client.Amount)
        match f.execErr with
        | some e => ⟨db, some (httpError e 500), [], .returned⟩
        | none =>
          match updateBalance db newBalance client.Id with
          | .error e => ⟨db, some (httpError e 500), [], .returned⟩
          | .ok updated =>
            match f.commitErr with
            | some e => ⟨db, some (httpError e 500), [], .returned⟩
            | none => ⟨updated, none, [(client.Id, newBalance)], .next⟩

/-- The responses of one iteration, tagged with the writer of the command. -/
def tagged (w : ResponseWriter) (r : Option Response) : List (ResponseWriter × Response) :=
  match r with
  | some x => [(w, x)]
  | none => []

/-- Function `depositProcess` on the channel content `q`; `f n` are the database faults of the
`n`-th iteration.  Each iteration receives twice: `for _ = range queueDeposit` takes one
command and throws it away, `client := <-queueDeposit` takes the next one. -/
def depositProcess (f : Nat → DbFaults) (db : Table) :
    List DepositTransaction → LoopResult DepositTransaction
  | [] => ⟨db, [], [], [], [], .waiting⟩
  | [c] => ⟨db, [], [], [c], [], .waiting⟩
  | c :: client :: rest =>
    let r := depositProcessStep (f 0) db client
    match r.flow with
    | .next =>
      let k := depositProcess (fun n => f (n + 1)) r.clients rest
      ⟨k.clients, tagged client.W r.written ++ k.written, client :: k.processed,
        c :: k.discarded, k.pending, k.exit⟩
    | .returned => ⟨r.clients, tagged client.W r.written, [client], [c], rest, .returned⟩
    | .panicked => ⟨r.clients, tagged client.W r.written, [client], [c], rest, .panicked⟩

/-- Function `withdrawProcess` on the channel content `q`, with the same double receive. -/
def withdrawProcess (f : Nat → DbFaults) (db : Table) :
    List WithdrawTransaction → LoopResult WithdrawTransaction
  | [] => ⟨db, [], [], [], [], .waiting⟩
  | [c] => ⟨db, [], [], [c], [], .waiting⟩
  | c :: client :: rest =>
    let r := withdrawProcessStep (f 0) db client
    match r.flow with
    | .next =>
      let k := withdrawProcess (fun n => f (n + 1)) r.clients rest
      ⟨k.clients, tagged client.W r.written ++ k.written, client :: k.processed,
        c :: k.discarded, k.pending, k.exit⟩
    | .returned => ⟨r.clients, tagged client.W r.written, [client], [c], rest, .returned⟩
    | .panicked => ⟨r.clients, tagged client.W r.written, [client], [c], rest, .panicked⟩

/-- A database in which every call succeeds. -/
def noFaults : Nat → DbFaults := fun _ => {}

/-- Every balance of the table is unset or non-negative. -/
def NonNegative (t : Table) : Prop :=
  ∀ c ∈ t, ∀ b, c.balance = some b → 0 ≤ b

/-- Number of responses written on writer `w`. -/
def writesOn (w : ResponseWriter) (l : List (ResponseWriter × Response)) : Nat :=
  (l.filter (fun p => decide (p.1 = w))).length


/-! ## Facts about float64 and column rounding -/

theorem roundHalfEven_eq_of_lt (y : ℚ) (m : ℤ) (h : |y - m| < 1 / 2) : roundHalfEven y = m := by
  rw [abs_lt] at h
  obtain ⟨h1, h2⟩ := h
  unfold roundHalfEven
  by_cases hm : (m : ℚ) ≤ y
  · have hf : ⌊y⌋ = m := by
      rw [Int.floor_eq_iff]
      constructor <;> linarith
    rw [hf, if_pos (by linarith)]
  · have hf : ⌊y⌋ = m - 1 := by
      rw [Int.floor_eq_iff]
      push_cast
      constructor <;> linarith
    rw [hf]
    push_cast
    rw [if_neg (by linarith), if_pos (by linarith)]
    ring

theorem roundHalfEven_intCast (n : ℤ) : roundHalfEven (n : ℚ) = n :=
  roundHalfEven_eq_of_lt _ n (by simp)

theorem roundHalfEven_error (y : ℚ) : |(roundHalfEven y : ℚ) - y| ≤ 1 / 2 := by
  have h1 := Int.floor_le y
  have h2 := Int.lt_floor_add_one y
  unfold roundHalfEven
  rw [abs_le]
  split_ifs <;> push_cast <;> constructor <;> linarith

theorem roundHalfEven_nonneg (y : ℚ) (h : 0 ≤ y) : 0 ≤ roundHalfEven y := by
  have h1 : 0 ≤ ⌊y⌋ := Int.floor_nonneg.mpr h
  unfold roundHalfEven
  split_ifs <;> omega

theorem roundHalfAway_eq_of_lt (x : ℚ) (m : ℤ) (h : |x - m| < 1 / 2) : roundHalfAway x = m := by
  rw [abs_lt] at h
  obtain ⟨h1, h2⟩ := h
  unfold roundHalfAway
  split_ifs with hx
  · rw [Int.floor_eq_iff]
    constructor <;> linarith
  · have : ⌊-x + 1 / 2⌋ = -m := by
      rw [Int.floor_eq_iff]
      push_cast
      constructor <;> linarith
    rw [this]
    ring

theorem roundHalfAway_nonneg (x : ℚ) (h : 0 ≤ x) : 0 ≤ roundHalfAway x := by
  unfold roundHalfAway
  rw [if_pos h]
  exact Int.floor_nonneg.mpr (by linarith)

theorem rnd64_nonneg (x : ℚ) (h : 0 ≤ x) : 0 ≤ rnd64 x := by
  unfold rnd64
  have hp : (0 : ℚ) < 2 ^ (max (Int.log 2 |x| - 52) (-1074)) := zpow_pos (by norm_num) _
  have : 0 ≤ roundHalfEven (x / 2 ^ (max (Int.log 2 |x| - 52) (-1074))) :=
    roundHalfEven_nonneg _ (div_nonneg h hp.le)
  have h2 : (0 : ℚ) ≤ (roundHalfEven (x / 2 ^ (max (Int.log 2 |x| - 52) (-1074))) : ℚ) := by
    exact_mod_cast this
  exact mul_nonneg h2 hp.le

/-- The rounding error of `rnd64` is at most half a unit in the last place. -/
theorem rnd64_error (x : ℚ) :
    |rnd64 x - x| ≤ 2 ^ (max (Int.log 2 |x| - 52) (-1074)) / 2 := by
  unfold rnd64
  set e : ℤ := max (Int.log 2 |x| - 52) (-1074) with he
  have hp : (0 : ℚ) < 2 ^ e := zpow_pos (by norm_num) _
  have h := roundHalfEven_error (x / 2 ^ e)
  have hx : (roundHalfEven (x / 2 ^ e) : ℚ) * 2 ^ e - x
      = ((roundHalfEven (x / 2 ^ e) : ℚ) - x / 2 ^ e) * 2 ^ e := by
    field_simp
  rw [hx, abs_mul, abs_of_pos hp]
  calc |(roundHalfEven (x / 2 ^ e) : ℚ) - x / 2 ^ e| * 2 ^ e ≤ 1 / 2 * 2 ^ e :=
        mul_le_mul_of_nonneg_right h hp.le
    _ = 2 ^ e / 2 := by ring


theorem rnd64_zero : rnd64 0 = 0 := by
  simp [rnd64, roundHalfEven]

theorem log2_le_of_lt (x : ℚ) (n : ℤ) (hx : x ≠ 0) (h : |x| < 2 ^ (n + 1)) :
    Int.log 2 |x| ≤ n := by
  have hpos : 0 < |x| := abs_pos.mpr hx
  have h2 : |x| < ((2 : ℕ) : ℚ) ^ (n + 1) := by simpa using h
  have := (Int.lt_zpow_iff_log_lt (b := 2) (by norm_num) hpos).mp h2
  omega

theorem le_log2_of_le (x : ℚ) (n : ℤ) (hx : x ≠ 0) (h : 2 ^ n ≤ |x|) :
    n ≤ Int.log 2 |x| := by
  have hpos : 0 < |x| := abs_pos.mpr hx
  have h2 : ((2 : ℕ) : ℚ) ^ n ≤ |x| := by simpa using h
  exact (Int.zpow_le_iff_le_log (b := 2) (by norm_num) hpos).mp h2

/-- Below `2 ^ 27` the rounding error of `rnd64` is at most `2 ^ (-27)`. -/
theorem rnd64_error_small (x : ℚ) (h : |x| < 2 ^ 27) : |rnd64 x - x| ≤ 1 / 2 ^ 27 := by
  by_cases hx : x = 0
  · rw [hx, rnd64_zero]; norm_num
  · have h27 : (2 : ℚ) ^ ((26 : ℤ) + 1) = 2 ^ 27 := by norm_num
    have hlog : Int.log 2 |x| ≤ 26 := log2_le_of_lt x 26 hx (by rw [h27]; exact h)
    have he : max (Int.log 2 |x| - 52) (-1074) ≤ -26 := by omega
    have hpow : (2 : ℚ) ^ (max (Int.log 2 |x| - 52) (-1074)) ≤ 2 ^ (-26 : ℤ) :=
      zpow_le_zpow_right₀ (by norm_num) he
    calc |rnd64 x - x| ≤ 2 ^ (max (Int.log 2 |x| - 52) (-1074)) / 2 := rnd64_error x
      _ ≤ 2 ^ (-26 : ℤ) / 2 := div_le_div_of_nonneg_right hpow (by norm_num)
      _ = 1 / 2 ^ 27 := by norm_num

/-- A number `m * 2 ^ j` with `|m| < 2 ^ 53` and `-1074 ≤ j` is a float64: `rnd64` keeps it. -/
theorem rnd64_exact (m j : ℤ) (hm : |m| < 2 ^ 53) (hj : -1074 ≤ j) :
    rnd64 ((m : ℚ) * 2 ^ j) = (m : ℚ) * 2 ^ j := by
  by_cases hm0 : m = 0
  · simp [hm0, rnd64_zero]
  · have hx : (m : ℚ) * 2 ^ j ≠ 0 := by
      have : (2 : ℚ) ^ j ≠ 0 := zpow_ne_zero _ (by norm_num)
      exact mul_ne_zero (by exact_mod_cast hm0) this
    have hpj : (0 : ℚ) < 2 ^ j := zpow_pos (by norm_num) _
    have habs : |(m : ℚ) * 2 ^ j| < 2 ^ (52 + j + 1) := by
      rw [abs_mul, abs_of_pos hpj, show (52 + j + 1 : ℤ) = 53 + j by ring, zpow_add₀ (by norm_num)]
      have : |(m : ℚ)| < 2 ^ (53 : ℤ) := by
        have h53 : (2 : ℚ) ^ (53 : ℤ) = ((2 ^ 53 : ℤ) : ℚ) := by norm_num
        rw [← Int.cast_abs, h53]
        exact_mod_cast hm
      exact mul_lt_mul_of_pos_right this hpj
    have hlog := log2_le_of_lt _ (52 + j) hx habs
    obtain ⟨e, he⟩ : ∃ e : ℤ, e = max (Int.log 2 |(m : ℚ) * 2 ^ j| - 52) (-1074) := ⟨_, rfl⟩
    have hej : e ≤ j := by omega
    obtain ⟨d, hd⟩ : ∃ d : ℕ, j = e + d := ⟨(j - e).toNat, by omega⟩
    have hpe : (2 : ℚ) ^ e ≠ 0 := zpow_ne_zero _ (by norm_num)
    have hdiv : (m : ℚ) * 2 ^ j / 2 ^ e = ((m * 2 ^ d : ℤ) : ℚ) := by
      rw [hd, zpow_add₀ (by norm_num), zpow_natCast]
      push_cast
      field_simp
      ring
    simp only [rnd64, ← he]
    rw [hdiv, roundHalfEven_intCast, ← hdiv]
    field_simp

theorem rnd64_intCast (n : ℤ) (h : |n| < 2 ^ 53) : rnd64 (n : ℚ) = n := by
  have := rnd64_exact n 0 h (by norm_num)
  simpa using this

/-- Evaluation of `rnd64` in the normal range: when `2 ^ (52 + e) ≤ |x| < 2 ^ (53 + e)` the
result is the integer nearest `x / 2 ^ e`, times `2 ^ e`. -/
theorem rnd64_eq_of_normal (x : ℚ) (e m : ℤ) (he : -1074 ≤ e) (hlo : 2 ^ (52 + e) ≤ |x|)
    (hhi : |x| < 2 ^ (52 + e + 1)) (hm : |x / 2 ^ e - m| < 1 / 2) :
    rnd64 x = (m : ℚ) * 2 ^ e := by
  have hx : x ≠ 0 := by
    intro h0
    rw [h0, abs_zero] at hlo
    exact absurd hlo (not_le.mpr (zpow_pos (by norm_num) _))
  have h1 := log2_le_of_lt x (52 + e) hx hhi
  have h2 := le_log2_of_le x (52 + e) hx hlo
  have hE : max (Int.log 2 |x| - 52) (-1074) = e := by omega
  unfold rnd64
  simp only [hE]
  rw [roundHalfEven_eq_of_lt _ m hm]

theorem rnd64_ofNat (n : ℕ) [n.AtLeastTwo] (h : n < 2 ^ 53) :
    rnd64 (no_index (OfNat.ofNat n)) = OfNat.ofNat n := by
  have h1 : |(n : ℤ)| < 2 ^ 53 := by
    rw [abs_of_nonneg (Int.natCast_nonneg n)]
    exact_mod_cast h
  have := rnd64_intCast (n : ℤ) h1
  simpa using this

theorem rnd64_one : rnd64 1 = 1 := by
  have := rnd64_intCast 1 (by norm_num)
  simpa using this

theorem roundHalfAway_error (x : ℚ) : |(roundHalfAway x : ℚ) - x| ≤ 1 / 2 := by
  unfold roundHalfAway
  rw [abs_le]
  split_ifs
  · have h1 := Int.floor_le (x + 1 / 2)
    have h2 := Int.lt_floor_add_one (x + 1 / 2)
    constructor <;> linarith
  · have h1 := Int.floor_le (-x + 1 / 2)
    have h2 := Int.lt_floor_add_one (-x + 1 / 2)
    push_cast
    constructor <;> linarith

/-- A float64 within `1 / 2000` of the decimal `c / 100`, which fits the column, is stored as
`c / 100`. -/
theorem toNumeric_near (v : ℚ) (c : ℤ) (hc : |c| < 10 ^ 10) (hv : |v - c / 100| < 1 / 2000) :
    toNumeric v = .ok ((c : ℚ) / 100) := by
  have hv2 := abs_lt.mp hv
  have ht : roundHalfAway (v * 1000) = 10 * c := by
    apply roundHalfAway_eq_of_lt
    rw [abs_lt]
    push_cast
    constructor <;> linarith [hv2.1, hv2.2]
  have hd1 : roundHalfAway ((c : ℚ) / 100 * 100) = c := by
    apply roundHalfAway_eq_of_lt
    rw [show (c : ℚ) / 100 * 100 - c = 0 by ring]
    norm_num
  have hd2 : roundHalfAway (v * 100) = c := by
    apply roundHalfAway_eq_of_lt
    rw [abs_lt]
    constructor <;> linarith [hv2.1, hv2.2]
  have hr : ¬ (10 : ℚ) ^ 8 ≤ |(c : ℚ) / 100| := by
    rw [not_le, abs_div, abs_of_pos (show (0 : ℚ) < 100 by norm_num), div_lt_iff₀ (by norm_num)]
    have : ((|c| : ℤ) : ℚ) < ((10 ^ 10 : ℤ) : ℚ) := by exact_mod_cast hc
    rw [Int.cast_abs] at this
    calc |(c : ℚ)| < ((10 ^ 10 : ℤ) : ℚ) := this
      _ = 10 ^ 8 * 100 := by norm_num
  have ht2 : ((10 * c : ℤ) : ℚ) / 1000 = (c : ℚ) / 100 := by
    push_cast
    ring
  unfold toNumeric
  simp only [ht, ht2]
  split_ifs with h1 h2 h3
  · rw [hd1] at h2; exact absurd h2 hr
  · rw [hd1]
  · rw [hd2] at h3; exact absurd h3 hr
  · rw [hd2]

/-- Evaluation of `toNumeric` at a float64 whose three-decimal neighbour `t3 / 1000` does not
parse back to it: the value itself is rounded to two decimals. -/
theorem toNumeric_far (v : ℚ) (t3 c : ℤ) (h3 : |v * 1000 - t3| < 1 / 2)
    (hsmall : |(t3 : ℚ) / 1000| < 2 ^ 27) (hne : 1 / 2 ^ 27 < |(t3 : ℚ) / 1000 - v|)
    (h2 : |v * 100 - c| < 1 / 2) (hc : |c| < 10 ^ 10) :
    toNumeric v = .ok ((c : ℚ) / 100) := by
  have ht : roundHalfAway (v * 1000) = t3 := roundHalfAway_eq_of_lt _ _ h3
  have hd2 : roundHalfAway (v * 100) = c := roundHalfAway_eq_of_lt _ _ h2
  have hrt : rnd64 ((t3 : ℚ) / 1000) ≠ v := by
    intro h
    have := rnd64_error_small _ hsmall
    rw [h, abs_sub_comm] at this
    exact absurd this (not_le.mpr hne)
  have hr : ¬ (10 : ℚ) ^ 8 ≤ |(c : ℚ) / 100| := by
    rw [not_le, abs_div, abs_of_pos (show (0 : ℚ) < 100 by norm_num), div_lt_iff₀ (by norm_num)]
    have : ((|c| : ℤ) : ℚ) < ((10 ^ 10 : ℤ) : ℚ) := by exact_mod_cast hc
    rw [Int.cast_abs] at this
    calc |(c : ℚ)| < ((10 ^ 10 : ℤ) : ℚ) := this
      _ = 10 ^ 8 * 100 := by norm_num
  unfold toNumeric
  simp only [ht, if_neg hrt, hd2, if_neg hr]

theorem toNumeric_nonneg (v r : ℚ) (hv : 0 ≤ v) (h : toNumeric v = .ok r) : 0 ≤ r := by
  have key : ∀ d : ℚ, 0 ≤ d → (0 : ℚ) ≤ (roundHalfAway (d * 100) : ℚ) / 100 := by
    intro d hd
    have : 0 ≤ roundHalfAway (d * 100) := roundHalfAway_nonneg _ (by positivity)
    have h2 : (0 : ℚ) ≤ (roundHalfAway (d * 100) : ℚ) := by exact_mod_cast this
    exact div_nonneg h2 (by norm_num)
  have h1 : (0 : ℚ) ≤ (roundHalfAway (v * 1000) : ℚ) / 1000 := by
    have : 0 ≤ roundHalfAway (v * 1000) := roundHalfAway_nonneg _ (by positivity)
    have h2 : (0 : ℚ) ≤ (roundHalfAway (v * 1000) : ℚ) := by exact_mod_cast this
    exact div_nonneg h2 (by norm_num)
  unfold toNumeric at h
  by_cases hrt : rnd64 ((roundHalfAway (v * 1000) : ℚ) / 1000) = v
  · simp only [hrt, if_true] at h
    split_ifs at h
    cases h
    exact key _ h1
  · simp only [hrt, if_false] at h
    split_ifs at h
    cases h
    exact key _ hv

theorem toNumeric_ofNat (n : ℕ) [n.AtLeastTwo] (h : n < 10 ^ 8) :
    toNumeric (no_index (OfNat.ofNat n)) = .ok (OfNat.ofNat n) := by
  have hc : |(100 * (n : ℤ))| < 10 ^ 10 := by
    rw [abs_of_nonneg (by positivity)]
    have : (n : ℤ) < 10 ^ 8 := by exact_mod_cast h
    linarith
  have := toNumeric_near (n : ℚ) (100 * (n : ℤ)) hc (by push_cast; ring_nf; norm_num)
  have h2 : ((100 * (n : ℤ) : ℤ) : ℚ) / 100 = (n : ℚ) := by push_cast; ring
  rw [h2] at this
  simpa using this

theorem updateBalance_of_toNumeric (t : Table) (v r : Money) (id : Int)
    (h : toNumeric v = .ok r) : updateBalance t v id = .ok (setBalance t (rnd64 r) id) := by
  unfold updateBalance
  rw [h]

/-- A whole number below `10 ^ 8` is stored as it is. -/
theorem updateBalance_ofNat (t : Table) (n : ℕ) [n.AtLeastTwo] (h : n < 10 ^ 8) (id : Int) :
    updateBalance t (no_index (OfNat.ofNat n)) id = .ok (setBalance t (OfNat.ofNat n) id) := by
  rw [updateBalance_of_toNumeric t _ _ id (toNumeric_ofNat n h),
    rnd64_ofNat n (lt_trans h (by norm_num))]

/-! ## Facts about the table operations -/

theorem selectBalance_nil (j : Int) : selectBalance [] j = none := rfl

theorem selectBalance_cons (c : ClientRow) (t : Table) (j : Int) :
    selectBalance (c :: t) j = if c.id = j then some c.balance else selectBalance t j := by
  unfold selectBalance
  by_cases h : c.id = j <;> simp [List.find?_cons, h]

theorem setBalance_cons (c : ClientRow) (t : Table) (v : Money) (id : Int) :
    setBalance (c :: t) v id
      = (if c.id = id then { c with balance := some v } else c) :: setBalance t v id := rfl

theorem selectBalance_setBalance_ne (t : Table) (v : Money) (id j : Int) (h : j ≠ id) :
    selectBalance (setBalance t v id) j = selectBalance t j := by
  induction t with
  | nil => rfl
  | cons c t ih =>
    rw [setBalance_cons, selectBalance_cons, selectBalance_cons, ih]
    by_cases hc : c.id = id
    · have hj : ¬ c.id = j := fun e => h (e ▸ hc)
      simp [hc, Ne.symm h, hj]
    · simp [hc]

theorem selectBalance_setBalance_eq (t : Table) (v : Money) (id : Int) (x : Option Money)
    (h : selectBalance t id = some x) :
    selectBalance (setBalance t v id) id = some (some v) := by
  induction t with
  | nil => simp [selectBalance_nil] at h
  | cons c t ih =>
    rw [selectBalance_cons] at h
    rw [setBalance_cons, selectBalance_cons]
    by_cases hc : c.id = id
    · simp [hc]
    · simp only [hc, if_false] at h ⊢
      exact ih h

theorem NonNegative_setBalance (t : Table) (v : Money) (id : Int)
    (ht : NonNegative t) (hv : 0 ≤ v) : NonNegative (setBalance t v id) := by
  intro c hc b hb
  simp only [setBalance, List.mem_map] at hc
  obtain ⟨c0, hc0, rfl⟩ := hc
  by_cases h : c0.id = id
  · simp only [h, if_true, Option.some.injEq] at hb
    exact hb ▸ hv
  · simp only [h, if_false] at hb
    exact ht c0 hc0 b hb

theorem NonNegative_selectBalance (t : Table) (id : Int) (b : Money)
    (ht : NonNegative t) (h : selectBalance t id = some (some b)) : 0 ≤ b := by
  induction t with
  | nil => simp [selectBalance_nil] at h
  | cons c t ih =>
    rw [selectBalance_cons] at h
    by_cases hc : c.id = id
    · simp only [hc, if_true, Option.some.injEq] at h
      exact ht c (List.mem_cons_self c t) b h
    · simp only [hc, if_false] at h
      exact ih (fun c0 h0 => ht c0 (List.mem_cons_of_mem c h0)) h

/-! ## One iteration of the workers -/

/-- The float64 nearest a decimal of whole hundredths that fits the column is within
`2 ^ (-27)` of it. -/
theorem rnd64_cents_error (k : ℤ) (hk : |k| < 10 ^ 10) :
    |rnd64 ((k : ℚ) / 100) - (k : ℚ) / 100| ≤ 1 / 2 ^ 27 := by
  apply rnd64_error_small
  have h1 : |(k : ℚ)| < 10 ^ 10 := by
    have : ((|k| : ℤ) : ℚ) < ((10 ^ 10 : ℤ) : ℚ) := by exact_mod_cast hk
    rw [Int.cast_abs] at this
    simpa using this
  rw [abs_div, abs_of_pos (show (0 : ℚ) < 100 by norm_num), div_lt_iff₀ (by norm_num)]
  calc |(k : ℚ)| < 10 ^ 10 := h1
    _ ≤ 2 ^ 27 * 100 := by norm_num

theorem abs_cents_lt (k : ℤ) (hk : |k| < 10 ^ 10) : |(k : ℚ) / 100| < 10 ^ 8 := by
  have h1 : |(k : ℚ)| < 10 ^ 10 := by
    have : ((|k| : ℤ) : ℚ) < ((10 ^ 10 : ℤ) : ℚ) := by exact_mod_cast hk
    rw [Int.cast_abs] at this
    simpa using this
  rw [abs_div, abs_of_pos (show (0 : ℚ) < 100 by norm_num), div_lt_iff₀ (by norm_num)]
  calc |(k : ℚ)| < 10 ^ 10 := h1
    _ = 10 ^ 8 * 100 := by norm_num

/-- The float64 sum of two balances of whole hundredths is stored as their decimal sum. -/
theorem updateBalance_add_cents (db : Table) (id : Int) (k a : ℤ) (hk : |k| < 10 ^ 10)
    (ha : |a| < 10 ^ 10) (hsum : |k + a| < 10 ^ 10) :
    updateBalance db (rnd64 (rnd64 ((k : ℚ) / 100) + rnd64 ((a : ℚ) / 100))) id
      = .ok (setBalance db (rnd64 (((k : ℚ) + a) / 100)) id) := by
  have e1 := abs_le.mp (rnd64_cents_error k hk)
  have e2 := abs_le.mp (rnd64_cents_error a ha)
  have hs := abs_lt.mp (abs_cents_lt (k + a) hsum)
  push_cast at hs
  have hsmall : |rnd64 ((k : ℚ) / 100) + rnd64 ((a : ℚ) / 100)| < 2 ^ 27 := by
    rw [abs_lt]
    constructor <;> norm_num at e1 e2 hs ⊢ <;> linarith [e1.1, e1.2, e2.1, e2.2, hs.1, hs.2]
  have e3 := abs_le.mp (rnd64_error_small _ hsmall)
  have hnear : |rnd64 (rnd64 ((k : ℚ) / 100) + rnd64 ((a : ℚ) / 100)) - ((k + a : ℤ) : ℚ) / 100|
      < 1 / 2000 := by
    rw [abs_lt]
    push_cast
    constructor <;> norm_num at e1 e2 e3 ⊢ <;> linarith [e1.1, e1.2, e2.1, e2.2, e3.1, e3.2]
  unfold updateBalance
  rw [toNumeric_near _ (k + a) hsum hnear]
  push_cast
  rfl

/-- The float64 difference of two balances of whole hundredths is stored as their decimal
difference. -/
theorem updateBalance_sub_cents (db : Table) (id : Int) (k a : ℤ) (hk : |k| < 10 ^ 10)
    (ha : |a| < 10 ^ 10) (hdiff : |k - a| < 10 ^ 10) :
    updateBalance db (rnd64 (rnd64 ((k : ℚ) / 100) - rnd64 ((a : ℚ) / 100))) id
      = .ok (setBalance db (rnd64 (((k : ℚ) - a) / 100)) id) := by
  have e1 := abs_le.mp (rnd64_cents_error k hk)
  have e2 := abs_le.mp (rnd64_cents_error a ha)
  have hs := abs_lt.mp (abs_cents_lt (k - a) hdiff)
  push_cast at hs
  have hsmall : |rnd64 ((k : ℚ) / 100) - rnd64 ((a : ℚ) / 100)| < 2 ^ 27 := by
    rw [abs_lt]
    constructor <;> norm_num at e1 e2 hs ⊢ <;> linarith [e1.1, e1.2, e2.1, e2.2, hs.1, hs.2]
  have e3 := abs_le.mp (rnd64_error_small _ hsmall)
  have hnear : |rnd64 (rnd64 ((k : ℚ) / 100) - rnd64 ((a : ℚ) / 100)) - ((k - a : ℤ) : ℚ) / 100|
      < 1 / 2000 := by
    rw [abs_lt]
    push_cast
    constructor <;> norm_num at e1 e2 e3 ⊢ <;> linarith [e1.1, e1.2, e2.1, e2.2, e3.1, e3.2]
  unfold updateBalance
  rw [toNumeric_near _ (k - a) hdiff hnear]
  push_cast
  rfl

/-- A float64 amount of whole hundredths is stored as that decimal. -/
theorem updateBalance_cents (db : Table) (id : Int) (a : ℤ) (ha : |a| < 10 ^ 10) :
    updateBalance db (rnd64 ((a : ℚ) / 100)) id
      = .ok (setBalance db (rnd64 ((a : ℚ) / 100)) id) := by
  have e2 := abs_le.mp (rnd64_cents_error a ha)
  have hnear : |rnd64 ((a : ℚ) / 100) - (a : ℚ) / 100| < 1 / 2000 := by
    rw [abs_lt]
    constructor <;> norm_num at e2 ⊢ <;> linarith [e2.1, e2.2]
  unfold updateBalance
  rw [toNumeric_near _ a ha hnear]

/-- The float64 images of two amounts of whole hundredths compare like the amounts. -/
theorem rnd64_cents_le (k a : ℤ) (hk : |k| < 10 ^ 10) (ha : |a| < 10 ^ 10) (hle : a ≤ k) :
    rnd64 ((a : ℚ) / 100) ≤ rnd64 ((k : ℚ) / 100) := by
  rcases eq_or_lt_of_le hle with h | h
  · rw [h]
  · have e1 := abs_le.mp (rnd64_cents_error k hk)
    have e2 := abs_le.mp (rnd64_cents_error a ha)
    have h1 : (a : ℚ) + 1 ≤ k := by exact_mod_cast h
    norm_num at e1 e2
    linarith [e1.1, e2.2]

theorem scanBalance_ok (f : DbFaults) (db : Table) (id : Int) (cur : Option Money)
    (h : scanBalance f db id = .ok cur) : selectBalance db id = some cur := by
  unfold scanBalance at h
  split at h
  · cases h
  · split at h
    · cases h
    · rename_i hsel
      cases h
      exact hsel

theorem scanBalance_noFault (db : Table) (id : Int) (cur : Option Money)
    (h : selectBalance db id = some cur) : scanBalance {} db id = .ok cur := by
  simp [scanBalance, h]

theorem updateBalance_NonNegative (db updated : Table) (v : Money) (id : Int)
    (hdb : NonNegative db) (hv : 0 ≤ v) (h : updateBalance db v id = .ok updated) :
    NonNegative updated := by
  unfold updateBalance at h
  cases hn : toNumeric v with
  | error e => simp [hn] at h
  | ok r =>
    simp only [hn, Except.ok.injEq] at h
    rw [← h]
    exact NonNegative_setBalance db _ id hdb (rnd64_nonneg r (toNumeric_nonneg v r hv hn))

theorem depositProcessStep_NonNegative (f : DbFaults) (db : Table) (client : DepositTransaction)
    (hdb : NonNegative db) (hpos : 0 < client.Amount) :
    NonNegative (depositProcessStep f db client).clients := by
  cases hb : f.beginErr with
  | some e => simp only [depositProcessStep, hb]; exact hdb
  | none =>
    cases hs : scanBalance f db client.Id with
    | error e => simp only [depositProcessStep, hb, hs]; exact hdb
    | ok cur =>
      have hsel := scanBalance_ok f db client.Id cur hs
      cases he : f.execErr with
      | some e => simp only [depositProcessStep, hb, hs, he]; exact hdb
      | none =>
        cases cur with
        | none =>
          cases hu : updateBalance db client.Amount client.Id with
          | error e => simp only [depositProcessStep, hb, hs, he, hu]; exact hdb
          | ok updated =>
            have hup := updateBalance_NonNegative db updated _ client.Id hdb (le_of_lt hpos) hu
            cases hc : f.commitErr with
            | some e => simp only [depositProcessStep, hb, hs, he, hu, hc]; exact hdb
            | none => simp only [depositProcessStep, hb, hs, he, hu, hc]; exact hup
        | some b =>
          have hnn := NonNegative_selectBalance db client.Id b hdb hsel
          have hnew : (0 : ℚ) ≤ rnd64 (b + client.Amount) :=
            rnd64_nonneg _ (add_nonneg hnn (le_of_lt hpos))
          cases hu : updateBalance db (rnd64 (b + client.Amount)) client.Id with
          | error e => simp only [depositProcessStep, hb, hs, he, hu]; exact hdb
          | ok updated =>
            have hup := updateBalance_NonNegative db updated _ client.Id hdb hnew hu
            cases hc : f.commitErr with
            | some e => simp only [depositProcessStep, hb, hs, he, hu, hc]; exact hdb
            | none => simp only [depositProcessStep, hb, hs, he, hu, hc]; exact hup

theorem withdrawProcessStep_NonNegative (f : DbFaults) (db : Table)
    (client : WithdrawTransaction) (hdb : NonNegative db) :
    NonNegative (withdrawProcessStep f db client).clients := by
  cases hb : f.beginErr with
  | some e => simp only [withdrawProcessStep, hb]; exact hdb
  | none =>
    cases hs : scanBalance f db client.Id with
    | error e => simp only [withdrawProcessStep, hb, hs]; exact hdb
    | ok cur =>
      cases cur with
      | none => simp only [withdrawProcessStep, hb, hs]; exact hdb
      | some b =>
        by_cases hlt : b < client.Amount
        · simp only [withdrawProcessStep, hb, hs, hlt, if_true]; exact hdb
        · have hnew : (0 : ℚ) ≤ rnd64 (b - client.Amount) :=
            rnd64_nonneg _ (sub_nonneg.mpr (not_lt.mp hlt))
          cases he : f.execErr with
          | some e => simp only [withdrawProcessStep, hb, hs, hlt, if_false, he]; exact hdb
          | none =>
            cases hu : updateBalance db (rnd64 (b - client.Amount)) client.Id with
            | error e =>
              simp only [withdrawProcessStep, hb, hs, hlt, if_false, he, hu]; exact hdb
            | ok updated =>
              have hup := updateBalance_NonNegative db updated _ client.Id hdb hnew hu
              cases hc : f.commitErr with
              | some e =>
                simp only [withdrawProcessStep, hb, hs, hlt, if_false, he, hu, hc]; exact hdb
              | none =>
                simp only [withdrawProcessStep, hb, hs, hlt, if_false, he, hu, hc]; exact hup

/-- C10: when every balance of the table is unset or non-negative and the command has a positive
amount, one iteration of `depositProcess` and one iteration of `withdrawProcess` (committing,
rejecting, failing, whatever the database faults are) leave a table in which every balance is
again unset or non-negative. -/
theorem processStep_preserves_NonNegative (f g : DbFaults) (db : Table)
    (dep : DepositTransaction) (wd : WithdrawTransaction)
    (hdb : NonNegative db) (hdep : 0 < dep.Amount) (_hwd : 0 < wd.Amount) :
    NonNegative (depositProcessStep f db dep).clients ∧
      NonNegative (withdrawProcessStep g db wd).clients :=
  ⟨depositProcessStep_NonNegative f db dep hdb hdep,
   withdrawProcessStep_NonNegative g db wd hdb⟩

/-- C10 (witness): a table with one unset balance and one balance of 100, a deposit of 30 on
the unset account and a withdrawal of the whole balance of the other. -/
theorem processStep_preserves_NonNegative_witness :
    NonNegative [⟨1, "ann", none⟩, ⟨2, "bob", some 100⟩] ∧
    (0 : Money) < (⟨1, 30, 0, ⟨30, none, "1"⟩⟩ : DepositTransaction).Amount ∧
    (0 : Money) < (⟨2, 100, 1, ⟨100, none, "2"⟩⟩ : WithdrawTransaction).Amount ∧
    NonNegative
      (depositProcessStep {} [⟨1, "ann", none⟩, ⟨2, "bob", some 100⟩]
        ⟨1, 30, 0, ⟨30, none, "1"⟩⟩).clients ∧
    NonNegative
      (withdrawProcessStep {} [⟨1, "ann", none⟩, ⟨2, "bob", some 100⟩]
        ⟨2, 100, 1, ⟨100, none, "2"⟩⟩).clients :=
  have hdb : NonNegative [⟨1, "ann", none⟩, ⟨2, "bob", some 100⟩] := by
    intro c hc b hb
    simp only [List.mem_cons, List.mem_singleton, List.not_mem_nil, or_false] at hc
    rcases hc with rfl | rfl
    · simp at hb
    · simp only [Option.some.injEq] at hb
      rw [← hb]
      norm_num
  ⟨hdb, by simp, by simp,
   processStep_preserves_NonNegative {} {} [⟨1, "ann", none⟩, ⟨2, "bob", some 100⟩]
     ⟨1, 30, 0, ⟨30, none, "1"⟩⟩ ⟨2, 100, 1, ⟨100, none, "2"⟩⟩ hdb (by simp) (by simp)⟩

/-- C2 (amended): when transaction begin and the balance read succeed and the account has a row
whose balance is unset (NULL) or smaller than the amount, `withdrawProcess` writes
"insufficient funds" with status 400, commits nothing, and leaves the whole table as it was. -/
theorem withdrawProcessStep_insufficient (f : DbFaults) (db : Table)
    (client : WithdrawTransaction) (hbegin : f.beginErr = none) (hscan : f.scanErr = none)
    (h : selectBalance db client.Id = some none ∨
      ∃ b, selectBalance db client.Id = some (some b) ∧ b < client.Amount) :
    (withdrawProcessStep f db client).written = some (httpError "insufficient funds" 400) ∧
      (withdrawProcessStep f db client).clients = db ∧
      (withdrawProcessStep f db client).committed = [] := by
  rcases h with h | ⟨b, h, hlt⟩
  · simp [withdrawProcessStep, scanBalance, hbegin, hscan, h]
  · simp [withdrawProcessStep, scanBalance, hbegin, hscan, h, hlt]

/-- C2 (witness): a withdrawal of 120 from account 1 whose balance is 100. -/
theorem withdrawProcessStep_insufficient_witness :
    (withdrawProcessStep {} [⟨1, "ann", some 100⟩] ⟨1, 120, 0, ⟨120, none, "1"⟩⟩).written
        = some (httpError "insufficient funds" 400) ∧
      (withdrawProcessStep {} [⟨1, "ann", some 100⟩] ⟨1, 120, 0, ⟨120, none, "1"⟩⟩).clients
        = [⟨1, "ann", some 100⟩] ∧
      (withdrawProcessStep {} [⟨1, "ann", some 100⟩] ⟨1, 120, 0, ⟨120, none, "1"⟩⟩).committed
        = [] :=
  withdrawProcessStep_insufficient {} [⟨1, "ann", some 100⟩] ⟨1, 120, 0, ⟨120, none, "1"⟩⟩
    rfl rfl (Or.inr ⟨100, by simp [selectBalance], by norm_num⟩)

/-- C2 (counterexample): a withdrawal for an account that has no row is answered with the text
of `sql.ErrNoRows` and status 500, and a withdrawal larger than the balance is answered with the
error of `db.Begin()` and status 500 when the transaction cannot be started; neither outcome is
"insufficient funds". -/
theorem withdrawProcessStep_store_error :
    selectBalance [(⟨2, "bob", some 7⟩ : ClientRow)] 1 = none ∧
    (withdrawProcessStep {} [⟨2, "bob", some 7⟩] ⟨1, 5, 0, ⟨5, none, "1"⟩⟩).written
      = some ⟨500, "sql: no rows in result set\n"⟩ ∧
    (withdrawProcessStep {} [⟨2, "bob", some 7⟩] ⟨1, 5, 0, ⟨5, none, "1"⟩⟩).written
      ≠ some (httpError "insufficient funds" 400) ∧
    (withdrawProcessStep ⟨some "connection refused", none, none, none⟩ [⟨1, "ann", some 10⟩]
        ⟨1, 50, 0, ⟨50, none, "1"⟩⟩).written
      = some ⟨500, "connection refused\n"⟩ ∧
    (withdrawProcessStep ⟨some "connection refused", none, none, none⟩ [⟨1, "ann", some 10⟩]
        ⟨1, 50, 0, ⟨50, none, "1"⟩⟩).written
      ≠ some (httpError "insufficient funds" 400) := by
  refine ⟨by simp [selectBalance], ?_, ?_, ?_, ?_⟩ <;>
    simp [withdrawProcessStep, scanBalance, selectBalance, httpError, errNoRows]

/-- C7 (amended): a deposit command processed by `depositProcess` against a store in which no
operation fails, for an account that has a row, where the balance (zero when it is unset, NULL)
is `k` hundredths and the amount is `a` hundredths, each as the float64 nearest that decimal,
and `k`, `a` and `k + a` are below `10 ^ 10` in absolute value: the balance of the account
becomes the decimal `(k + a) / 100`, current + amount exactly; exactly one balance update is
committed, for that account, nothing is written on the response writer, the loop goes on, and
the balance of every other account is unchanged. -/
theorem depositProcessStep_commits (db : Table) (client : DepositTransaction)
    (current : Option Money) (k a : ℤ)
    (hrow : selectBalance db client.Id = some current)
    (hcur : current = none ∧ k = 0 ∨ current = some (rnd64 ((k : ℚ) / 100)))
    (hamt : client.Amount = rnd64 ((a : ℚ) / 100))
    (hk : |k| < 10 ^ 10) (ha : |a| < 10 ^ 10) (hsum : |k + a| < 10 ^ 10) :
    selectBalance (depositProcessStep {} db client).clients client.Id
        = some (some (rnd64 (((k : ℚ) + a) / 100))) ∧
      (∀ j, j ≠ client.Id →
        selectBalance (depositProcessStep {} db client).clients j = selectBalance db j) ∧
      (depositProcessStep {} db client).committed.map Prod.fst = [client.Id] ∧
      (depositProcessStep {} db client).written = none ∧
      (depositProcessStep {} db client).flow = .next := by
  rcases hcur with ⟨hnone, hk0⟩ | hsome
  · subst hnone
    subst hk0
    have hstep : depositProcessStep {} db client
        = ⟨setBalance db (rnd64 ((a : ℚ) / 100)) client.Id, none,
            [(client.Id, rnd64 ((a : ℚ) / 100))], .next⟩ := by
      simp only [depositProcessStep, scanBalance_noFault db client.Id none hrow, hamt,
        updateBalance_cents db client.Id a ha]
    rw [hstep]
    simp only [Int.cast_zero, zero_add, List.map_cons, List.map_nil]
    exact ⟨selectBalance_setBalance_eq db _ _ _ hrow,
      fun j hj => selectBalance_setBalance_ne db _ _ j hj, trivial, trivial, trivial⟩
  · subst hsome
    have hstep : depositProcessStep {} db client
        = ⟨setBalance db (rnd64 (((k : ℚ) + a) / 100)) client.Id, none,
            [(client.Id, rnd64 (rnd64 ((k : ℚ) / 100) + rnd64 ((a : ℚ) / 100)))], .next⟩ := by
      simp only [depositProcessStep, scanBalance_noFault db client.Id _ hrow, hamt,
        updateBalance_add_cents db client.Id k a hk ha hsum]
    rw [hstep]
    simp only [List.map_cons, List.map_nil]
    exact ⟨selectBalance_setBalance_eq db _ _ _ hrow,
      fun j hj => selectBalance_setBalance_ne db _ _ j hj, trivial, trivial, trivial⟩

/-- C7 (witness): account 1 has a row with an unset balance and receives a deposit of 10.25. -/
theorem depositProcessStep_commits_witness :
    selectBalance [(⟨1, "ann", none⟩ : ClientRow)] 1 = some none ∧
    selectBalance
        (depositProcessStep {} [⟨1, "ann", none⟩]
          ⟨1, rnd64 (((1025 : ℤ) : ℚ) / 100), 0,
            ⟨rnd64 (((1025 : ℤ) : ℚ) / 100), none, "1"⟩⟩).clients 1
      = some (some (rnd64 ((((0 : ℤ) : ℚ) + ((1025 : ℤ) : ℚ)) / 100))) :=
  ⟨by simp [selectBalance],
   (depositProcessStep_commits [⟨1, "ann", none⟩]
      ⟨1, rnd64 (((1025 : ℤ) : ℚ) / 100), 0, ⟨rnd64 (((1025 : ℤ) : ℚ) / 100), none, "1"⟩⟩
      none 0 1025 (by simp [selectBalance]) (Or.inl ⟨rfl, rfl⟩) rfl
      (by norm_num) (by norm_num) (by norm_num)).1⟩

theorem rnd64_513_512 : rnd64 (513 / 512) = 513 / 512 := by
  have h := rnd64_exact 513 (-9) (by norm_num) (by norm_num)
  have e : ((513 : ℤ) : ℚ) * 2 ^ (-9 : ℤ) = 513 / 512 := by norm_num
  rw [e] at h
  exact h

theorem rnd64_511_512 : rnd64 (511 / 512) = 511 / 512 := by
  have h := rnd64_exact 511 (-9) (by norm_num) (by norm_num)
  have e : ((511 : ℤ) : ℚ) * 2 ^ (-9 : ℤ) = 511 / 512 := by norm_num
  rw [e] at h
  exact h

theorem toNumeric_513_512 : toNumeric (513 / 512) = .ok 1 := by
  have h := toNumeric_far (513 / 512) 1002 100 (by norm_num [abs_lt]) (by norm_num [abs_lt])
    (by rw [lt_abs]; left; norm_num) (by norm_num [abs_lt]) (by norm_num)
  have e : ((100 : ℤ) : ℚ) / 100 = 1 := by norm_num
  rw [e] at h
  exact h

theorem toNumeric_511_512 : toNumeric (511 / 512) = .ok 1 := by
  have h := toNumeric_far (511 / 512) 998 100 (by norm_num [abs_lt]) (by norm_num [abs_lt])
    (by rw [lt_abs]; right; norm_num) (by norm_num [abs_lt]) (by norm_num)
  have e : ((100 : ℤ) : ℚ) / 100 = 1 := by norm_num
  rw [e] at h
  exact h

/-- C7 (counterexample): for an account without a row the balance read of `depositProcess`
returns `sql.ErrNoRows`; the worker writes status 500 and returns, and no balance update is
committed, so the missing row is not treated as a zero balance.  And a deposit of 0.001953125
(`1 / 512`, a float64) on account 1, whose balance is 1.00, is committed with the float64 sum
1.001953125, which the column rounds to 1.00: the balance is 1 afterwards, not
current + amount. -/
theorem depositProcessStep_counterexamples :
    selectBalance [(⟨2, "bob", some 7⟩ : ClientRow)] 1 = none ∧
    depositProcessStep {} [⟨2, "bob", some 7⟩] ⟨1, 30, 0, ⟨30, none, "1"⟩⟩
      = ⟨[⟨2, "bob", some 7⟩], some ⟨500, "sql: no rows in result set\n"⟩, [], .returned⟩ ∧
    (depositProcessStep {} [⟨2, "bob", some 7⟩] ⟨1, 30, 0, ⟨30, none, "1"⟩⟩).committed
      ≠ [(1, 0 + 30)] ∧
    depositProcessStep {} [⟨1, "ann", some 1⟩] ⟨1, 1 / 512, 0, ⟨1 / 512, none, "1"⟩⟩
      = ⟨[⟨1, "ann", some 1⟩], none, [(1, 513 / 512)], .next⟩ ∧
    selectBalance
        (depositProcessStep {} [⟨1, "ann", some 1⟩]
          ⟨1, 1 / 512, 0, ⟨1 / 512, none, "1"⟩⟩).clients 1
      ≠ some (some (1 + 1 / 512)) := by
  have h512 : (1 : ℚ) + 1 / 512 = 513 / 512 := by norm_num
  have hstep : depositProcessStep {} [⟨1, "ann", some 1⟩] ⟨1, 1 / 512, 0, ⟨1 / 512, none, "1"⟩⟩
      = ⟨[⟨1, "ann", some 1⟩], none, [(1, 513 / 512)], .next⟩ := by
    have hsel : selectBalance [(⟨1, "ann", some 1⟩ : ClientRow)] 1 = some (some 1) := by
      simp [selectBalance]
    have hup := updateBalance_of_toNumeric [⟨1, "ann", some 1⟩] _ _ 1 toNumeric_513_512
    rw [rnd64_one] at hup
    simp only [depositProcessStep, scanBalance_noFault _ 1 _ hsel, h512, rnd64_513_512, hup]
    simp [setBalance]
  refine ⟨by simp [selectBalance], ?_, ?_, hstep, ?_⟩
  · simp [depositProcessStep, scanBalance, selectBalance, httpError, errNoRows]
  · simp [depositProcessStep, scanBalance, selectBalance, httpError, errNoRows]
  · rw [hstep]
    norm_num [selectBalance]

/-- C8 (amended): a withdraw command processed by `withdrawProcess` against a store in which no
operation fails, for an account whose balance is `k` hundredths and an amount of `a` hundredths,
each as the float64 nearest that decimal, with `0 ≤ a ≤ k < 10 ^ 10` (equality included): the
balance of the account becomes the decimal `(k - a) / 100`, current - amount exactly; one update
is committed, for that account, and the balance of every other account is unchanged. -/
theorem withdrawProcessStep_commits (db : Table) (client : WithdrawTransaction) (k a : ℤ)
    (hrow : selectBalance db client.Id = some (some (rnd64 ((k : ℚ) / 100))))
    (hamt : client.Amount = rnd64 ((a : ℚ) / 100))
    (hk : k < 10 ^ 10) (ha : 0 ≤ a) (hle : a ≤ k) :
    selectBalance (withdrawProcessStep {} db client).clients client.Id
        = some (some (rnd64 (((k : ℚ) - a) / 100))) ∧
      (∀ j, j ≠ client.Id →
        selectBalance (withdrawProcessStep {} db client).clients j = selectBalance db j) ∧
      (withdrawProcessStep {} db client).committed.map Prod.fst = [client.Id] ∧
      (withdrawProcessStep {} db client).written = none ∧
      (withdrawProcessStep {} db client).flow = .next := by
  have hk2 : |k| < 10 ^ 10 := by rw [abs_lt]; constructor <;> omega
  have ha2 : |a| < 10 ^ 10 := by rw [abs_lt]; constructor <;> omega
  have hd2 : |k - a| < 10 ^ 10 := by rw [abs_lt]; constructor <;> omega
  have hnot : ¬ rnd64 ((k : ℚ) / 100) < rnd64 ((a : ℚ) / 100) :=
    not_lt.mpr (rnd64_cents_le k a hk2 ha2 hle)
  have hstep : withdrawProcessStep {} db client
      = ⟨setBalance db (rnd64 (((k : ℚ) - a) / 100)) client.Id, none,
          [(client.Id, rnd64 (rnd64 ((k : ℚ) / 100) - rnd64 ((a : ℚ) / 100)))], .next⟩ := by
    simp only [withdrawProcessStep, scanBalance_noFault db client.Id _ hrow, hamt, hnot,
      if_false, updateBalance_sub_cents db client.Id k a hk2 ha2 hd2]
  rw [hstep]
  simp only [List.map_cons, List.map_nil]
  exact ⟨selectBalance_setBalance_eq db _ _ _ hrow,
    fun j hj => selectBalance_setBalance_ne db _ _ j hj, trivial, trivial, trivial⟩

/-- C8 (witness): the boundary case, a withdrawal of the whole balance 100.25 of account 1. -/
theorem withdrawProcessStep_commits_witness :
    selectBalance
        [(⟨1, "ann", some (rnd64 (((10025 : ℤ) : ℚ) / 100))⟩ : ClientRow), ⟨2, "bob", some 7⟩] 1
      = some (some (rnd64 (((10025 : ℤ) : ℚ) / 100))) ∧
    (10025 : ℤ) ≤ 10025 ∧
    selectBalance
        (withdrawProcessStep {}
          [⟨1, "ann", some (rnd64 (((10025 : ℤ) : ℚ) / 100))⟩, ⟨2, "bob", some 7⟩]
          ⟨1, rnd64 (((10025 : ℤ) : ℚ) / 100), 0,
            ⟨rnd64 (((10025 : ℤ) : ℚ) / 100), none, "1"⟩⟩).clients 1
      = some (some (rnd64 ((((10025 : ℤ) : ℚ) - ((10025 : ℤ) : ℚ)) / 100))) :=
  ⟨by simp [selectBalance], le_refl _,
   (withdrawProcessStep_commits
      [⟨1, "ann", some (rnd64 (((10025 : ℤ) : ℚ) / 100))⟩, ⟨2, "bob", some 7⟩]
      ⟨1, rnd64 (((10025 : ℤ) : ℚ) / 100), 0, ⟨rnd64 (((10025 : ℤ) : ℚ) / 100), none, "1"⟩⟩
      10025 10025 (by simp [selectBalance]) rfl (by norm_num) (by norm_num) (le_refl _)).1⟩

/-- C8 (counterexample): a withdrawal of 0.001953125 (`1 / 512`, a float64) from account 1,
whose balance is 1.00, passes the balance test and is committed with the float64 difference
0.998046875, which the column rounds to 1.00: the balance is 1 afterwards, not
current - amount. -/
theorem withdrawProcessStep_rounds :
    selectBalance [(⟨1, "ann", some 1⟩ : ClientRow)] 1 = some (some 1) ∧
    (1 : Money) / 512 ≤ 1 ∧
    withdrawProcessStep {} [⟨1, "ann", some 1⟩] ⟨1, 1 / 512, 0, ⟨1 / 512, none, "1"⟩⟩
      = ⟨[⟨1, "ann", some 1⟩], none, [(1, 511 / 512)], .next⟩ ∧
    selectBalance
        (withdrawProcessStep {} [⟨1, "ann", some 1⟩]
          ⟨1, 1 / 512, 0, ⟨1 / 512, none, "1"⟩⟩).clients 1
      ≠ some (some (1 - 1 / 512)) := by
  have h512 : (1 : ℚ) - 1 / 512 = 511 / 512 := by norm_num
  have hlt : ¬ (1 : ℚ) < 1 / 512 := by norm_num
  have hstep : withdrawProcessStep {} [⟨1, "ann", some 1⟩] ⟨1, 1 / 512, 0, ⟨1 / 512, none, "1"⟩⟩
      = ⟨[⟨1, "ann", some 1⟩], none, [(1, 511 / 512)], .next⟩ := by
    have hsel : selectBalance [(⟨1, "ann", some 1⟩ : ClientRow)] 1 = some (some 1) := by
      simp [selectBalance]
    have hup := updateBalance_of_toNumeric [⟨1, "ann", some 1⟩] _ _ 1 toNumeric_511_512
    rw [rnd64_one] at hup
    simp only [withdrawProcessStep, scanBalance_noFault _ 1 _ hsel, hlt, if_false, h512,
      rnd64_511_512, hup]
    simp [setBalance]
  refine ⟨by simp [selectBalance], by norm_num, hstep, ?_⟩
  rw [hstep]
  norm_num [selectBalance]

/-! ## Admission -/

/-- C3 (amended): a request for which the amount that `Decode` leaves is at most zero, whether
or not `Decode` returned an error, is rejected by `handleDepositRequest` and by
`handleWithdrawRequest` with status 400: neither channel receives a command, the table is
unchanged, `db.Ping` and `writeFile` are not called and the fallback file is unchanged, whatever
`client_id` is and whether or not the store answers. -/
theorem handlers_reject_nonpositive (env : Env) (w : ResponseWriter) (r : Request) (s : World)
    (h : (decodeBody r).Amount ≤ 0) :
    handleDepositRequest w r s
        = { s with written := s.written ++ [(w, httpError "insufficient funds" 400)] } ∧
      handleWithdrawRequest env w r s
        = { s with written := s.written ++ [(w, httpError "insufficient funds" 400)] } := by
  simp [handleDepositRequest, handleWithdrawRequest, h]

/-- C3 (witness): a body that fails to decode and leaves the amount at zero, a malformed
`client_id`, and a store that does not answer the ping. -/
theorem handlers_reject_nonpositive_witness :
    (decodeBody ⟨0, some "unexpected EOF", "x"⟩).Amount ≤ 0 ∧
    handleDepositRequest 0 ⟨0, some "unexpected EOF", "x"⟩ ⟨[], [], [], [], [], 0, 0⟩
      = ⟨[], [], [], [], [(0, httpError "insufficient funds" 400)], 0, 0⟩ ∧
    handleWithdrawRequest ⟨some "down", {}, 0⟩ 0 ⟨0, some "unexpected EOF", "x"⟩
        ⟨[], [], [], [], [], 0, 0⟩
      = ⟨[], [], [], [], [(0, httpError "insufficient funds" 400)], 0, 0⟩ :=
  ⟨by simp [decodeBody],
   handlers_reject_nonpositive ⟨some "down", {}, 0⟩ 0 ⟨0, some "unexpected EOF", "x"⟩
     ⟨[], [], [], [], [], 0, 0⟩ (by simp [decodeBody])⟩

theorem Atoi_one : Atoi "1" = .ok 1 := by rfl

/-- C3 (counterexample): a body whose decoding fails after a positive amount has been stored
(`Decode` returns an error and leaves 5 in the amount) is not rejected: both handlers send the
command on their channel and answer 200. -/
theorem handlers_admit_failed_decode :
    (⟨5, some "json: cannot unmarshal string into Go struct field Amount.amount of type float64",
        "1"⟩ : Request).decodeErr ≠ none ∧
    (handleDepositRequest 0
        ⟨5, some "json: cannot unmarshal string into Go struct field Amount.amount of type float64",
          "1"⟩
        ⟨[], [], [], [], [], 0, 0⟩).queueDeposit
      = [⟨1, 5, 0,
          ⟨5, some "json: cannot unmarshal string into Go struct field Amount.amount of type float64",
            "1"⟩⟩] ∧
    (handleWithdrawRequest ⟨none, {}, 0⟩ 0
        ⟨5, some "json: cannot unmarshal string into Go struct field Amount.amount of type float64",
          "1"⟩
        ⟨[], [], [], [], [], 0, 0⟩).queueWithdraw
      = [⟨1, 5, 0,
          ⟨5, some "json: cannot unmarshal string into Go struct field Amount.amount of type float64",
            "1"⟩⟩] ∧
    (handleDepositRequest 0
        ⟨5, some "json: cannot unmarshal string into Go struct field Amount.amount of type float64",
          "1"⟩
        ⟨[], [], [], [], [], 0, 0⟩).written
      = [(0, ⟨200, "Deposit accepted successfully"⟩)] := by
  refine ⟨by simp, ?_, ?_, ?_⟩ <;>
    norm_num [handleDepositRequest, handleWithdrawRequest, decodeBody, Atoi_one]

/-- For every valid withdrawal request handled while `db.Ping()` fails and the fallback file can
be written, `handleWithdrawRequest` appends exactly one record with the account and the amount
of the request, and sends the command on `queueWithdraw` as well. -/
theorem handleWithdrawRequest_ping_fails (env : Env) (w : ResponseWriter) (r : Request)
    (s : World) (ID : Int) (e : String) (hpos : 0 < (decodeBody r).Amount)
    (hid : Atoi r.client_id = .ok ID) (hping : env.pingErr = some e)
    (hopen : env.fs.openErr = none) (hwrite : env.fs.writeErr = none) :
    handleWithdrawRequest env w r s
      = { s with
          pings := s.pings + 1
          file := s.file ++ [⟨env.now, ID, (decodeBody r).Amount⟩]
          writeFileCalls := s.writeFileCalls + 1
          queueWithdraw := s.queueWithdraw ++ [⟨ID, (decodeBody r).Amount, w, r⟩]
          written := s.written ++ [(w, ⟨200, "Withdrawal  accpeted"⟩)] } := by
  simp [handleWithdrawRequest, not_le.mpr hpos, hid, hping, writeFile, hopen, hwrite]

/-- C4 (evaluation): two valid withdrawal requests (50 and 60 on account 1) arrive while
`db.Ping()` fails.  `handleWithdrawRequest` appends one record per request to the fallback file
and also sends both commands on `queueWithdraw`; once the store answers again `withdrawProcess`
applies the second one, so account 1 goes from 100 to 40 although that withdrawal is in the
fallback file. -/
theorem handleWithdrawRequest_fallback_also_enqueues :
    (handleWithdrawRequest ⟨some "connection refused", {}, 1700000000⟩ 7 ⟨50, none, "1"⟩
        ⟨[⟨1, "ann", some 100⟩], [], [], [], [], 0, 0⟩).file
      = [⟨1700000000, 1, 50⟩] ∧
    (handleWithdrawRequest ⟨some "connection refused", {}, 1700000000⟩ 7 ⟨50, none, "1"⟩
        ⟨[⟨1, "ann", some 100⟩], [], [], [], [], 0, 0⟩).queueWithdraw
      = [⟨1, 50, 7, ⟨50, none, "1"⟩⟩] ∧
    (handleWithdrawRequest ⟨some "connection refused", {}, 1700000001⟩ 8 ⟨60, none, "1"⟩
        (handleWithdrawRequest ⟨some "connection refused", {}, 1700000000⟩ 7 ⟨50, none, "1"⟩
          ⟨[⟨1, "ann", some 100⟩], [], [], [], [], 0, 0⟩)).file
      = [⟨1700000000, 1, 50⟩, ⟨1700000001, 1, 60⟩] ∧
    (handleWithdrawRequest ⟨some "connection refused", {}, 1700000001⟩ 8 ⟨60, none, "1"⟩
        (handleWithdrawRequest ⟨some "connection refused", {}, 1700000000⟩ 7 ⟨50, none, "1"⟩
          ⟨[⟨1, "ann", some 100⟩], [], [], [], [], 0, 0⟩)).queueWithdraw
      = [⟨1, 50, 7, ⟨50, none, "1"⟩⟩, ⟨1, 60, 8, ⟨60, none, "1"⟩⟩] ∧
    (withdrawProcess noFaults [⟨1, "ann", some 100⟩]
        [⟨1, 50, 7, ⟨50, none, "1"⟩⟩, ⟨1, 60, 8, ⟨60, none, "1"⟩⟩]).clients
      = [⟨1, "ann", some 40⟩] := by
  have h50 : (0 : Money) < (decodeBody ⟨50, none, "1"⟩).Amount := by norm_num [decodeBody]
  have h60 : (0 : Money) < (decodeBody ⟨60, none, "1"⟩).Amount := by norm_num [decodeBody]
  rw [handleWithdrawRequest_ping_fails _ 7 _ _ 1 "connection refused" h50 Atoi_one rfl rfl rfl,
    handleWithdrawRequest_ping_fails _ 8 _ _ 1 "connection refused" h60 Atoi_one rfl rfl rfl]
  refine ⟨rfl, rfl, rfl, rfl, ?_⟩
  · norm_num [withdrawProcess, withdrawProcessStep, noFaults, scanBalance, selectBalance,
      rnd64_ofNat,
      updateBalance_ofNat, setBalance]

/-! ## The worker loops -/

/-- The first command of a non-empty channel is received by the `range` clause of
`depositProcess` and never used. -/
theorem depositProcess_discards_first (f : Nat → DbFaults) (db : Table)
    (c : DepositTransaction) (q : List DepositTransaction) :
    (depositProcess f db (c :: q)).discarded.head? = some c := by
  cases q with
  | nil => rfl
  | cons client rest =>
    simp only [depositProcess]
    split <;> rfl

/-- The first command of a non-empty channel is received by the `range` clause of
`withdrawProcess` and never used. -/
theorem withdrawProcess_discards_first (f : Nat → DbFaults) (db : Table)
    (c : WithdrawTransaction) (q : List WithdrawTransaction) :
    (withdrawProcess f db (c :: q)).discarded.head? = some c := by
  cases q with
  | nil => rfl
  | cons client rest =>
    simp only [withdrawProcess]
    split <;> rfl

/-- Of the commands received by `depositProcess`, at least as many are thrown away as are
processed, and every command of the channel is either processed, thrown away or left. -/
theorem depositProcess_counts (f : Nat → DbFaults) (db : Table) (q : List DepositTransaction) :
    (depositProcess f db q).processed.length ≤ (depositProcess f db q).discarded.length ∧
      (depositProcess f db q).processed.length + (depositProcess f db q).discarded.length
        + (depositProcess f db q).pending.length = q.length := by
  induction f, db, q using depositProcess.induct with
  | case1 f db => simp [depositProcess]
  | case2 f db c => simp [depositProcess]
  | case3 f db c client rest r hflow ih =>
    have hf : (depositProcessStep (f 0) db client).flow = .next := hflow
    have ih2 : _ ∧ _ := ih
    simp only [r] at ih2
    simp only [depositProcess, hf]
    simp only [List.length_cons]
    omega
  | case4 f db c client rest r hflow =>
    have hf : (depositProcessStep (f 0) db client).flow = .returned := hflow
    simp only [depositProcess, hf]
    simp only [List.length_cons, List.length_nil]
    omega
  | case5 f db c client rest r hflow =>
    have hf : (depositProcessStep (f 0) db client).flow = .panicked := hflow
    simp only [depositProcess, hf]
    simp only [List.length_cons, List.length_nil]
    omega

/-- Of the commands received by `withdrawProcess`, at least as many are thrown away as are
processed, and every command of the channel is either processed, thrown away or left. -/
theorem withdrawProcess_counts (f : Nat → DbFaults) (db : Table) (q : List WithdrawTransaction) :
    (withdrawProcess f db q).processed.length ≤ (withdrawProcess f db q).discarded.length ∧
      (withdrawProcess f db q).processed.length + (withdrawProcess f db q).discarded.length
        + (withdrawProcess f db q).pending.length = q.length := by
  induction f, db, q using withdrawProcess.induct with
  | case1 f db => simp [withdrawProcess]
  | case2 f db c => simp [withdrawProcess]
  | case3 f db c client rest r hflow ih =>
    have hf : (withdrawProcessStep (f 0) db client).flow = .next := hflow
    have ih2 : _ ∧ _ := ih
    simp only [r] at ih2
    simp only [withdrawProcess, hf]
    simp only [List.length_cons]
    omega
  | case4 f db c client rest r hflow =>
    have hf : (withdrawProcessStep (f 0) db client).flow = .returned := hflow
    simp only [withdrawProcess, hf]
    simp only [List.length_cons, List.length_nil]
    omega
  | case5 f db c client rest r hflow =>
    have hf : (withdrawProcessStep (f 0) db client).flow = .panicked := hflow
    simp only [withdrawProcess, hf]
    simp only [List.length_cons, List.length_nil]
    omega

/-- C1 (evaluation): account 1 starts at 100 and the store never fails.  With one deposit of 30
and one withdrawal of 50 admitted, both workers end waiting with empty channels and the balance
is still 100 (not 80), in either order of the workers; with deposits of 30 and 20 admitted the
drained balance is 120 (not 150). -/
theorem drained_balance_misses_commands :
    (withdrawProcess noFaults
        (depositProcess noFaults [⟨1, "ann", some 100⟩] [⟨1, 30, 0, ⟨30, none, "1"⟩⟩]).clients
        [⟨1, 50, 1, ⟨50, none, "1"⟩⟩]).clients
      = [⟨1, "ann", some 100⟩] ∧
    (depositProcess noFaults
        (withdrawProcess noFaults [⟨1, "ann", some 100⟩] [⟨1, 50, 1, ⟨50, none, "1"⟩⟩]).clients
        [⟨1, 30, 0, ⟨30, none, "1"⟩⟩]).clients
      = [⟨1, "ann", some 100⟩] ∧
    (depositProcess noFaults [⟨1, "ann", some 100⟩] [⟨1, 30, 0, ⟨30, none, "1"⟩⟩]).pending = [] ∧
    (depositProcess noFaults [⟨1, "ann", some 100⟩] [⟨1, 30, 0, ⟨30, none, "1"⟩⟩]).exit
      = .waiting ∧
    (withdrawProcess noFaults [⟨1, "ann", some 100⟩] [⟨1, 50, 1, ⟨50, none, "1"⟩⟩]).pending = [] ∧
    (withdrawProcess noFaults [⟨1, "ann", some 100⟩] [⟨1, 50, 1, ⟨50, none, "1"⟩⟩]).exit
      = .waiting ∧
    (depositProcess noFaults [⟨1, "ann", some 100⟩]
        [⟨1, 30, 0, ⟨30, none, "1"⟩⟩, ⟨1, 20, 1, ⟨20, none, "1"⟩⟩]).clients
      = [⟨1, "ann", some 120⟩] ∧
    (depositProcess noFaults [⟨1, "ann", some 100⟩]
        [⟨1, 30, 0, ⟨30, none, "1"⟩⟩, ⟨1, 20, 1, ⟨20, none, "1"⟩⟩]).pending = [] := by
  refine ⟨rfl, rfl, rfl, rfl, rfl, rfl, ?_, ?_⟩
  · norm_num [depositProcess, depositProcessStep, noFaults, scanBalance, selectBalance,
      rnd64_ofNat,
      updateBalance_ofNat, setBalance]
  · norm_num [depositProcess, depositProcessStep, noFaults, scanBalance, selectBalance,
      rnd64_ofNat, updateBalance_ofNat, setBalance]

/-- C5 (evaluation): four deposits (1, 2, 3, 4) and four withdrawals (1, 2, 3, 4) on account 1
are in the channels and the store never fails.  Each worker runs its loop body for the second
and the fourth command only; the first and the third are received and thrown away. -/
theorem workers_process_every_second_command :
    (depositProcess noFaults [⟨1, "ann", some 100⟩]
        [⟨1, 1, 0, ⟨1, none, "1"⟩⟩, ⟨1, 2, 1, ⟨2, none, "1"⟩⟩, ⟨1, 3, 2, ⟨3, none, "1"⟩⟩,
          ⟨1, 4, 3, ⟨4, none, "1"⟩⟩]).processed
      = [⟨1, 2, 1, ⟨2, none, "1"⟩⟩, ⟨1, 4, 3, ⟨4, none, "1"⟩⟩] ∧
    (depositProcess noFaults [⟨1, "ann", some 100⟩]
        [⟨1, 1, 0, ⟨1, none, "1"⟩⟩, ⟨1, 2, 1, ⟨2, none, "1"⟩⟩, ⟨1, 3, 2, ⟨3, none, "1"⟩⟩,
          ⟨1, 4, 3, ⟨4, none, "1"⟩⟩]).discarded
      = [⟨1, 1, 0, ⟨1, none, "1"⟩⟩, ⟨1, 3, 2, ⟨3, none, "1"⟩⟩] ∧
    (withdrawProcess noFaults [⟨1, "ann", some 100⟩]
        [⟨1, 1, 0, ⟨1, none, "1"⟩⟩, ⟨1, 2, 1, ⟨2, none, "1"⟩⟩, ⟨1, 3, 2, ⟨3, none, "1"⟩⟩,
          ⟨1, 4, 3, ⟨4, none, "1"⟩⟩]).processed
      = [⟨1, 2, 1, ⟨2, none, "1"⟩⟩, ⟨1, 4, 3, ⟨4, none, "1"⟩⟩] ∧
    (withdrawProcess noFaults [⟨1, "ann", some 100⟩]
        [⟨1, 1, 0, ⟨1, none, "1"⟩⟩, ⟨1, 2, 1, ⟨2, none, "1"⟩⟩, ⟨1, 3, 2, ⟨3, none, "1"⟩⟩,
          ⟨1, 4, 3, ⟨4, none, "1"⟩⟩]).discarded
      = [⟨1, 1, 0, ⟨1, none, "1"⟩⟩, ⟨1, 3, 2, ⟨3, none, "1"⟩⟩] := by
  refine ⟨?_, ?_, ?_, ?_⟩ <;>
    norm_num [depositProcess, depositProcessStep, withdrawProcess, withdrawProcessStep, noFaults,
      scanBalance, selectBalance, rnd64_ofNat,
      updateBalance_ofNat, setBalance]

/-- When the loop body of `withdrawProcess` does not end normally, the worker ends there: the
rest of the channel stays unreceived and the worker is not waiting for more. -/
theorem withdrawProcess_stops_on_failure (f : Nat → DbFaults) (db : Table)
    (c client : WithdrawTransaction) (rest : List WithdrawTransaction)
    (h : (withdrawProcessStep (f 0) db client).flow ≠ .next) :
    (withdrawProcess f db (c :: client :: rest)).pending = rest ∧
      (withdrawProcess f db (c :: client :: rest)).processed = [client] ∧
      (withdrawProcess f db (c :: client :: rest)).exit ≠ .waiting := by
  simp only [withdrawProcess]
  split
  · rename_i hflow
    exact absurd hflow h
  · exact ⟨rfl, rfl, by simp⟩
  · exact ⟨rfl, rfl, by simp⟩

/-- When the loop body of `depositProcess` does not end normally, the worker ends there: the
rest of the channel stays unreceived and the worker is not waiting for more. -/
theorem depositProcess_stops_on_failure (f : Nat → DbFaults) (db : Table)
    (c client : DepositTransaction) (rest : List DepositTransaction)
    (h : (depositProcessStep (f 0) db client).flow ≠ .next) :
    (depositProcess f db (c :: client :: rest)).pending = rest ∧
      (depositProcess f db (c :: client :: rest)).processed = [client] ∧
      (depositProcess f db (c :: client :: rest)).exit ≠ .waiting := by
  simp only [depositProcess]
  split
  · rename_i hflow
    exact absurd hflow h
  · exact ⟨rfl, rfl, by simp⟩
  · exact ⟨rfl, rfl, by simp⟩

/-- C6 (evaluation): account 1 holds 100.  `withdrawProcess` finds withdrawals of 10, 120, 10
and 20 in its channel: the loop body runs for 120, answers "insufficient funds" and the worker
returns, leaving 10 and 20 in the channel for ever.  `depositProcess` finds four deposits and
a store whose `db.Begin()` fails: the worker panics with two commands left; when only
`tx.Commit()` fails it returns with two commands left. -/
theorem workers_end_on_first_failure :
    (withdrawProcess noFaults [⟨1, "ann", some 100⟩]
        [⟨1, 10, 0, ⟨10, none, "1"⟩⟩, ⟨1, 120, 1, ⟨120, none, "1"⟩⟩, ⟨1, 10, 2, ⟨10, none, "1"⟩⟩,
          ⟨1, 20, 3, ⟨20, none, "1"⟩⟩]).exit = .returned ∧
    (withdrawProcess noFaults [⟨1, "ann", some 100⟩]
        [⟨1, 10, 0, ⟨10, none, "1"⟩⟩, ⟨1, 120, 1, ⟨120, none, "1"⟩⟩, ⟨1, 10, 2, ⟨10, none, "1"⟩⟩,
          ⟨1, 20, 3, ⟨20, none, "1"⟩⟩]).processed = [⟨1, 120, 1, ⟨120, none, "1"⟩⟩] ∧
    (withdrawProcess noFaults [⟨1, "ann", some 100⟩]
        [⟨1, 10, 0, ⟨10, none, "1"⟩⟩, ⟨1, 120, 1, ⟨120, none, "1"⟩⟩, ⟨1, 10, 2, ⟨10, none, "1"⟩⟩,
          ⟨1, 20, 3, ⟨20, none, "1"⟩⟩]).pending
      = [⟨1, 10, 2, ⟨10, none, "1"⟩⟩, ⟨1, 20, 3, ⟨20, none, "1"⟩⟩] ∧
    (withdrawProcess noFaults [⟨1, "ann", some 100⟩]
        [⟨1, 10, 0, ⟨10, none, "1"⟩⟩, ⟨1, 120, 1, ⟨120, none, "1"⟩⟩, ⟨1, 10, 2, ⟨10, none, "1"⟩⟩,
          ⟨1, 20, 3, ⟨20, none, "1"⟩⟩]).written = [(1, ⟨400, "insufficient funds\n"⟩)] ∧
    (withdrawProcess noFaults [⟨1, "ann", some 100⟩]
        [⟨1, 10, 0, ⟨10, none, "1"⟩⟩, ⟨1, 120, 1, ⟨120, none, "1"⟩⟩, ⟨1, 10, 2, ⟨10, none, "1"⟩⟩,
          ⟨1, 20, 3, ⟨20, none, "1"⟩⟩]).clients = [⟨1, "ann", some 100⟩] ∧
    (depositProcess (fun _ => ⟨some "connection refused", none, none, none⟩)
        [⟨1, "ann", some 100⟩]
        [⟨1, 1, 0, ⟨1, none, "1"⟩⟩, ⟨1, 2, 1, ⟨2, none, "1"⟩⟩, ⟨1, 3, 2, ⟨3, none, "1"⟩⟩,
          ⟨1, 4, 3, ⟨4, none, "1"⟩⟩]).exit = .panicked ∧
    (depositProcess (fun _ => ⟨some "connection refused", none, none, none⟩)
        [⟨1, "ann", some 100⟩]
        [⟨1, 1, 0, ⟨1, none, "1"⟩⟩, ⟨1, 2, 1, ⟨2, none, "1"⟩⟩, ⟨1, 3, 2, ⟨3, none, "1"⟩⟩,
          ⟨1, 4, 3, ⟨4, none, "1"⟩⟩]).pending
      = [⟨1, 3, 2, ⟨3, none, "1"⟩⟩, ⟨1, 4, 3, ⟨4, none, "1"⟩⟩] ∧
    (depositProcess (fun _ => ⟨none, none, none, some "commit failed"⟩)
        [⟨1, "ann", some 100⟩]
        [⟨1, 1, 0, ⟨1, none, "1"⟩⟩, ⟨1, 2, 1, ⟨2, none, "1"⟩⟩, ⟨1, 3, 2, ⟨3, none, "1"⟩⟩,
          ⟨1, 4, 3, ⟨4, none, "1"⟩⟩]).exit = .returned ∧
    (depositProcess (fun _ => ⟨none, none, none, some "commit failed"⟩)
        [⟨1, "ann", some 100⟩]
        [⟨1, 1, 0, ⟨1, none, "1"⟩⟩, ⟨1, 2, 1, ⟨2, none, "1"⟩⟩, ⟨1, 3, 2, ⟨3, none, "1"⟩⟩,
          ⟨1, 4, 3, ⟨4, none, "1"⟩⟩]).pending
      = [⟨1, 3, 2, ⟨3, none, "1"⟩⟩, ⟨1, 4, 3, ⟨4, none, "1"⟩⟩] := by
  refine ⟨?_, ?_, ?_, ?_, ?_, ?_, ?_, ?_, ?_⟩
  all_goals
    norm_num [depositProcess, depositProcessStep, withdrawProcess, withdrawProcessStep, noFaults,
      scanBalance, selectBalance, setBalance, tagged, httpError,
      rnd64_ofNat, updateBalance_ofNat, setBalance]
  rfl

/-- C9 (evaluation): two withdrawal requests of 50 on account 1, which holds 10, are admitted
with writers 7 and 8 while the store answers.  The handler writes the acceptance on each writer;
the worker throws away the command of writer 7 and rejects the command of writer 8, writing a
second response on writer 8.  With a balance of 100 instead, the command of writer 8 is
committed and the worker writes nothing. -/
theorem responses_per_writer :
    (handleWithdrawRequest ⟨none, {}, 0⟩ 8 ⟨50, none, "1"⟩
        (handleWithdrawRequest ⟨none, {}, 0⟩ 7 ⟨50, none, "1"⟩
          ⟨[⟨1, "ann", some 10⟩], [], [], [], [], 0, 0⟩)).queueWithdraw
      = [⟨1, 50, 7, ⟨50, none, "1"⟩⟩, ⟨1, 50, 8, ⟨50, none, "1"⟩⟩] ∧
    (handleWithdrawRequest ⟨none, {}, 0⟩ 8 ⟨50, none, "1"⟩
        (handleWithdrawRequest ⟨none, {}, 0⟩ 7 ⟨50, none, "1"⟩
          ⟨[⟨1, "ann", some 10⟩], [], [], [], [], 0, 0⟩)).written
      = [(7, ⟨200, "Withdrawal  accpeted"⟩), (8, ⟨200, "Withdrawal  accpeted"⟩)] ∧
    (withdrawProcess noFaults [⟨1, "ann", some 10⟩]
        [⟨1, 50, 7, ⟨50, none, "1"⟩⟩, ⟨1, 50, 8, ⟨50, none, "1"⟩⟩]).written
      = [(8, ⟨400, "insufficient funds\n"⟩)] ∧
    writesOn 8
        ([(7, ⟨200, "Withdrawal  accpeted"⟩), (8, ⟨200, "Withdrawal  accpeted"⟩)] ++
          (withdrawProcess noFaults [⟨1, "ann", some 10⟩]
            [⟨1, 50, 7, ⟨50, none, "1"⟩⟩, ⟨1, 50, 8, ⟨50, none, "1"⟩⟩]).written) = 2 ∧
    (withdrawProcess noFaults [⟨1, "ann", some 10⟩]
        [⟨1, 50, 7, ⟨50, none, "1"⟩⟩, ⟨1, 50, 8, ⟨50, none, "1"⟩⟩]).discarded
      = [⟨1, 50, 7, ⟨50, none, "1"⟩⟩] ∧
    (withdrawProcess noFaults [⟨1, "ann", some 100⟩]
        [⟨1, 50, 7, ⟨50, none, "1"⟩⟩, ⟨1, 50, 8, ⟨50, none, "1"⟩⟩]).written = [] ∧
    (withdrawProcess noFaults [⟨1, "ann", some 100⟩]
        [⟨1, 50, 7, ⟨50, none, "1"⟩⟩, ⟨1, 50, 8, ⟨50, none, "1"⟩⟩]).clients
      = [⟨1, "ann", some 50⟩] := by
  have hw : (withdrawProcess noFaults [⟨1, "ann", some 10⟩]
        [⟨1, 50, 7, ⟨50, none, "1"⟩⟩, ⟨1, 50, 8, ⟨50, none, "1"⟩⟩]).written
      = [(8, ⟨400, "insufficient funds\n"⟩)] := by
    norm_num [withdrawProcess, withdrawProcessStep, noFaults, scanBalance, selectBalance, tagged,
      httpError,
      rnd64_ofNat, updateBalance_ofNat, setBalance]
    rfl
  refine ⟨?_, ?_, hw, ?_, ?_, ?_, ?_⟩
  · norm_num [handleWithdrawRequest, decodeBody, Atoi_one]
  · norm_num [handleWithdrawRequest, decodeBody, Atoi_one]
  · rw [hw]
    simp [writesOn]
  · norm_num [withdrawProcess, withdrawProcessStep, noFaults, scanBalance, selectBalance,
      rnd64_ofNat, updateBalance_ofNat, setBalance]
  · norm_num [withdrawProcess, withdrawProcessStep, noFaults, scanBalance, selectBalance,
      setBalance, tagged,
      rnd64_ofNat, updateBalance_ofNat, setBalance]
  · norm_num [withdrawProcess, withdrawProcessStep, noFaults, scanBalance, selectBalance,
      rnd64_ofNat,
      updateBalance_ofNat, setBalance]

end GoBank
